import Mathlib

/-!
Shallow embedding of the capability registry, permission resolver and
command execution engine (src/database.py, src/registry.py,
src/executor.py, src/utils/bot_handler.py).

Modelling conventions:
* JSON values (parameter dicts, audit details, handler payloads) are the
  inductive `Value`.  TEXT columns that hold `json.dumps(...)` output are
  `String` produced by `jsonEncode`.
* SQLite tables are Lean lists of row structures, in insertion (rowid)
  order; `fetchone` of an un-ordered query is `List.find?`, and a UNIQUE
  violation (`sqlite3.IntegrityError`) is the explicit duplicate test in
  `Database.register_capability` / `Database.save_custom_command`.
* Python dicts used as keyed maps (the registry cache) are association
  lists with dict update semantics (`dictInsert`: replace in place when
  the key exists, append otherwise); the executor's `bot_handlers` dict
  is read-only during execution and is modelled as `String → Option Handler`.
* A Python call that may raise is a `HandlerOutcome` (`ok` return value
  or `raise` with `str(e)`); every embedded function is total, so the
  absence of exceptions crossing the executor boundary is by
  construction, and the interesting content is which branch the code
  takes.
* Handler invocations are recorded in an explicit `trace` list (the
  observable "the handler was called" event used by the call-count
  assertions the spec asks for).
-/

/-- A JSON value (Python dict / list / str / bool / int / None). -/
inductive Value where
  | nul
  | bool (b : Bool)
  | num (n : Nat)
  | str (s : String)
  | arr (elems : List Value)
  | obj (fields : List (String × Value))
deriving Repr, Inhabited

/-- Python truthiness of a JSON value (`if permissions_required:`). -/
def Value.truthy : Value → Bool
  | .nul => false
  | .bool b => b
  | .num n => n != 0
  | .str s => !s.isEmpty
  | .arr xs => !xs.isEmpty
  | .obj fs => !fs.isEmpty

/-- Python iteration `for x in v` restricted to the shapes the code
meets: iterating a list yields its elements (non-string elements map to
`""`, which ranks as an unknown permission level, the same behaviour
`levels.get(x, 0)` gives every unknown key); iterating a string yields
its one-character substrings; iterating a dict yields its keys. -/
def Value.iterStrings : Value → List String
  | .arr xs => xs.map (fun v => match v with | .str s => s | _ => "")
  | .str s => s.data.map (fun c => String.mk [c])
  | .obj fs => fs.map (fun p => p.1)
  | _ => []

/-- Field lookup in a JSON object (`d.get(k)`). -/
def Value.getField : Value → String → Option Value
  | .obj fs, k => (fs.find? (fun p => p.1 == k)).map (fun p => p.2)
  | _, _ => none

/-- The string payload of a JSON string value. -/
def Value.asString : Value → Option String
  | .str s => some s
  | _ => none

mutual

/-- Embeds `json.dumps` for the fragment of JSON the code stores (no escaping:
the embedded scenarios use plain strings). -/
def jsonEncode : Value → String
  | .nul => "null"
  | .bool true => "true"
  | .bool false => "false"
  | .num n => toString n
  | .str s => "\"" ++ s ++ "\""
  | .arr xs => "[" ++ String.intercalate ", " (jsonEncodeList xs) ++ "]"
  | .obj fs => "\x7b" ++ String.intercalate ", " (jsonEncodeFields fs) ++ "\x7d"

/-- Encodes the elements of a JSON array. -/
def jsonEncodeList : List Value → List String
  | [] => []
  | v :: vs => jsonEncode v :: jsonEncodeList vs

/-- Encodes the fields of a JSON object. -/
def jsonEncodeFields : List (String × Value) → List String
  | [] => []
  | f :: fs => ("\"" ++ f.1 ++ "\": " ++ jsonEncode f.2) :: jsonEncodeFields fs

end

/-- A row of the `capabilities` table (database.py lines 36-48);
`parameters` and `permissions_required` are TEXT columns holding JSON. -/
structure CapRow where
  bot_name : String
  capability_id : String
  description : String
  parameters : String
  permissions_required : String
deriving Repr, Inhabited

/-- A capability dict as it circulates in the registry cache and the
executor: built either from `register_capability`'s arguments (parsed
`parameters` dict / `permissions_required` list) or from `dict(row)` of
a database row (both JSON fields still TEXT, i.e. `.str`). -/
structure Capability where
  bot_name : String
  capability_id : String
  description : String
  parameters : Value
  permissions_required : Value
deriving Repr, Inhabited

/-- One step of a stored command (`steps` JSON element). -/
structure Step where
  bot_name : String
  capability_id : String
  parameters : Value
deriving Repr, Inhabited

/-- A row of the `custom_commands` table; `steps` is stored as JSON text
and parsed back by `json.loads` on read, modelled by keeping the parsed
list. -/
structure CommandRow where
  command_name : String
  description : String
  steps : List Step
  created_by : String
  enabled : Bool
deriving Repr, Inhabited

/-- A row of the `permissions` table; NULL `bot_name` means all bots,
NULL `capability_id` means all capabilities. -/
structure PermRow where
  user_id : String
  role : Option String
  bot_name : Option String
  capability_id : Option String
  permission_level : String
deriving Repr, Inhabited

/-- A row of the `audit_logs` table. -/
structure AuditEntry where
  action_type : String
  user_id : Option String
  username : Option String
  details : Value
  success : Bool
deriving Repr, Inhabited

/-- The SQLite database state (one list per table, rowid order). -/
structure Database where
  capabilities : List CapRow
  custom_commands : List CommandRow
  audit_logs : List AuditEntry
  permissions : List PermRow
deriving Repr, Inhabited

/-- Embeds `Database.register_capability` (database.py lines 103-127): INSERT
that returns `False` on a `UNIQUE(bot_name, capability_id)` violation. -/
def Database.register_capability (db : Database) (bot_name capability_id description : String)
    (parameters : Value) (permissions_required : List String) : Bool × Database :=
  if db.capabilities.any (fun r =>
      decide (r.bot_name = bot_name ∧ r.capability_id = capability_id)) then
    (false, db)
  else
    (true, { db with capabilities := db.capabilities ++
      [{ bot_name := bot_name, capability_id := capability_id, description := description,
         parameters := jsonEncode parameters,
         permissions_required := jsonEncode (.arr (permissions_required.map Value.str)) }] })

/-- Embeds `Database.get_capability` (database.py lines 129-140): SELECT by the
exact pair; `dict(row)` leaves the JSON TEXT columns as strings. -/
def Database.get_capability (db : Database) (bot_name capability_id : String) : Option Capability :=
  (db.capabilities.find? (fun r =>
      decide (r.bot_name = bot_name ∧ r.capability_id = capability_id))).map
    (fun r => { bot_name := r.bot_name, capability_id := r.capability_id,
                description := r.description, parameters := .str r.parameters,
                permissions_required := .str r.permissions_required })

/-- Embeds `Database.save_custom_command` (database.py lines 159-184): INSERT
that returns `False` on a duplicate `command_name`; `enabled` defaults
to 1. -/
def Database.save_custom_command (db : Database) (command_name description : String)
    (steps : List Step) (created_by : String) : Bool × Database :=
  if db.custom_commands.any (fun r => decide (r.command_name = command_name)) then
    (false, db)
  else
    (true, { db with custom_commands := db.custom_commands ++
      [{ command_name := command_name, description := description, steps := steps,
         created_by := created_by, enabled := true }] })

/-- Embeds `Database.get_custom_command` (database.py lines 186-198): SELECT
`WHERE command_name = ? AND enabled = 1`. -/
def Database.get_custom_command (db : Database) (command_name : String) : Option CommandRow :=
  db.custom_commands.find? (fun r => decide (r.command_name = command_name ∧ r.enabled = true))

/-- Embeds `Database.log_action` (database.py lines 216-232): append-only audit
insert. -/
def Database.log_action (db : Database) (action_type : String)
    (user_id username : Option String) (details : Value) (success : Bool) : Database :=
  { db with audit_logs := db.audit_logs ++
    [{ action_type := action_type, user_id := user_id, username := username,
       details := details, success := success }] }

/-- The `levels` dict of `_permission_level_allows`, with the
`dict.get(x, 0)` default for unknown levels. -/
def Database.levels : String → Nat
  | "read" => 1
  | "execute" => 2
  | "admin" => 3
  | _ => 0

/-- Embeds `Database._permission_level_allows` (database.py lines 300-303). -/
def Database._permission_level_allows (user_level required_level : String) : Bool :=
  decide (Database.levels required_level ≤ Database.levels user_level)

/-- Embeds `Database.check_permission` (database.py lines 259-298): three
tiers, each a `fetchone`; SQL `=` never matches NULL, `IS NULL` matches
exactly NULL; the first tier with a matching row decides the call. -/
def Database.check_permission (db : Database)
    (user_id bot_name capability_id permission_level : String) : Bool :=
  match db.permissions.find? (fun r =>
      decide (r.user_id = user_id ∧ r.bot_name = some bot_name ∧
              r.capability_id = some capability_id)) with
  | some row => Database._permission_level_allows row.permission_level permission_level
  | none =>
    match db.permissions.find? (fun r =>
        decide (r.user_id = user_id ∧ r.bot_name = some bot_name ∧
                r.capability_id = none)) with
    | some row => Database._permission_level_allows row.permission_level permission_level
    | none =>
      match db.permissions.find? (fun r =>
          decide (r.user_id = user_id ∧ r.bot_name = none)) with
      | some row => Database._permission_level_allows row.permission_level permission_level
      | none => false

/-- Embeds `Database.grant_permission` (database.py lines 305-315). -/
def Database.grant_permission (db : Database) (user_id permission_level : String)
    (bot_name capability_id : Option String) : Database :=
  { db with permissions := db.permissions ++
    [{ user_id := user_id, role := none, bot_name := bot_name,
       capability_id := capability_id, permission_level := permission_level }] }

/-- The registry's in-memory cache: a Python dict keyed by the string
`f"{bot_name}:{capability_id}"`, in insertion order. -/
structure CapabilityRegistry where
  capabilities_cache : List (String × Capability)
deriving Repr, Inhabited

/-- Python dict assignment `d[k] = v`: replace in place when the key is
present, append otherwise. -/
def dictInsert (d : List (String × Capability)) (k : String) (v : Capability) :
    List (String × Capability) :=
  if d.any (fun p => p.1 == k) then
    d.map (fun p => if p.1 == k then (k, v) else p)
  else
    d ++ [(k, v)]

/-- Python dict lookup `d[k]` guarded by `k in d`. -/
def dictFind (d : List (String × Capability)) (k : String) : Option Capability :=
  (d.find? (fun p => p.1 == k)).map (fun p => p.2)

/-- The registry together with the database it wraps (`self.db`); the
executor shares the same pair. -/
structure SysState where
  db : Database
  registry : CapabilityRegistry
deriving Repr, Inhabited

/-- Embeds `CapabilityRegistry.register_capability` (registry.py lines 38-68):
write through to the store, then cache the parsed dict under the
colon-joined key and append a `capability_registered` audit entry. -/
def CapabilityRegistry.register_capability (st : SysState)
    (bot_name capability_id description : String)
    (parameters : Value) (permissions_required : List String) : Bool × SysState :=
  let res := Database.register_capability st.db bot_name capability_id description
      parameters permissions_required
  if res.1 then
    let key := bot_name ++ ":" ++ capability_id
    let entry : Capability :=
      { bot_name := bot_name, capability_id := capability_id, description := description,
        parameters := parameters,
        permissions_required := .arr (permissions_required.map Value.str) }
    let db2 := Database.log_action res.2 "capability_registered" none none
      (.obj [("bot_name", .str bot_name), ("capability_id", .str capability_id),
             ("description", .str description)]) true
    let cache2 := dictInsert st.registry.capabilities_cache key entry
    (true, { db := db2, registry := { capabilities_cache := cache2 } })
  else
    (false, { db := res.2, registry := st.registry })

/-- Embeds `CapabilityRegistry.get_capability` (registry.py lines 70-79): cache
first, then the store, populating the cache on a store hit. -/
def CapabilityRegistry.get_capability (st : SysState) (bot_name capability_id : String) :
    Option Capability × SysState :=
  let key := bot_name ++ ":" ++ capability_id
  match dictFind st.registry.capabilities_cache key with
  | some cap => (some cap, st)
  | none =>
    match Database.get_capability st.db bot_name capability_id with
    | some cap =>
      let cache2 := dictInsert st.registry.capabilities_cache key cap
      (some cap, { db := st.db, registry := { capabilities_cache := cache2 } })
    | none => (none, st)

/-- The loop of `CapabilityRegistry.validate_command_steps` (registry.py
lines 121-131), with the running 0-based index `i`; `not bot_name`
is `= ""` here (absent keys and empty strings are both falsy). -/
def CapabilityRegistry.validate_steps_from (st : SysState) (i : Nat) :
    List Step → (Bool × Option String) × SysState
  | [] => ((true, none), st)
  | s :: rest =>
    if s.bot_name = "" ∨ s.capability_id = "" then
      ((false, some ("Step " ++ toString (i + 1) ++ " missing bot_name or capability_id")), st)
    else
      let res := CapabilityRegistry.get_capability st s.bot_name s.capability_id
      match res.1 with
      | none =>
        ((false, some ("Step " ++ toString (i + 1) ++ ": Capability " ++ "\x27" ++
          s.capability_id ++ "\x27 not found for bot " ++ "\x27" ++ s.bot_name ++ "\x27")), res.2)
      | some _ => CapabilityRegistry.validate_steps_from res.2 (i + 1) rest

/-- Embeds `CapabilityRegistry.validate_command_steps` (registry.py lines
112-131). -/
def CapabilityRegistry.validate_command_steps (st : SysState) (steps : List Step) :
    (Bool × Option String) × SysState :=
  CapabilityRegistry.validate_steps_from st 0 steps

/-- Outcome of invoking a handler: a normal Python return or a raised
exception carrying `str(e)`. -/
inductive HandlerOutcome where
  | ok (v : Value)
  | raise (msg : String)

/-- A bot handler as the executor calls it:
`handler.execute_capability(capability_id, parameters, context)` (or the
bare-function variant — both receive the same three arguments). -/
def Handler := String → Value → Value → HandlerOutcome

/-- The dict built by `_execute_step` (executor.py lines 239-269). -/
structure StepCallResult where
  success : Bool
  result : Option Value
  error : Option String
deriving Repr, Inhabited

/-- Embeds `CommandExecutor._execute_step` (executor.py lines 224-269): missing
handler is a failure dict; a handler call is appended to the invocation
trace; a normal return is wrapped as success and a raise is caught and
wrapped as failure. -/
def CommandExecutor._execute_step (bot_handlers : String → Option Handler)
    (bot_name capability_id : String) (parameters context : Value)
    (trace : List (String × String)) : StepCallResult × List (String × String) :=
  match bot_handlers bot_name with
  | none =>
    ({ success := false, result := none,
       error := some ("No handler registered for bot \"" ++ bot_name ++ "\"") }, trace)
  | some handler =>
    match handler capability_id parameters context with
    | .ok v =>
      ({ success := true, result := some v, error := none },
       trace ++ [(bot_name, capability_id)])
    | .raise e =>
      ({ success := false, result := none, error := some e },
       trace ++ [(bot_name, capability_id)])

/-- One element of the executor's `results` list (executor.py lines
149-156). -/
structure StepOutcome where
  step : Nat
  bot_name : String
  capability_id : String
  success : Bool
  result : Option Value
  error : Option String
deriving Repr, Inhabited

/-- The per-step result dict as folded into the success audit entry. -/
def StepOutcome.toValue (o : StepOutcome) : Value :=
  .obj [("step", .num o.step), ("bot_name", .str o.bot_name),
        ("capability_id", .str o.capability_id), ("success", .bool o.success),
        ("result", o.result.getD .nul), ("error", (o.error.map Value.str).getD .nul)]

/-- The dict returned by `execute_command` (executor.py lines 45-222);
the command-not-found return carries only `success` and `error`, so the
other fields are `Option`s. -/
structure ExecResult where
  success : Bool
  steps_executed : Option Nat
  total_steps : Option Nat
  results : Option (List StepOutcome)
  error : Option String
deriving Repr, Inhabited

/-- The executor's inputs that stay fixed across the step loop. -/
structure ExecEnv where
  bot_handlers : String → Option Handler
  command_name : String
  user_id : String
  username : String
  context : Value

/-- The mutable state of one `execute_command` call: registry + database
(audit log grows, the cache may be populated), the `results` list, and
the handler invocation trace. -/
structure ExecState where
  sys : SysState
  results : List StepOutcome
  trace : List (String × String)
deriving Repr, Inhabited

/-- Either the loop continues with an updated state, or the iteration
returned a result dict out of `execute_command`. -/
inductive StepProgress where
  | next (st : ExecState)
  | halt (r : ExecResult) (st : ExecState)

/-- The capability lookup a loop iteration performs for a step
(executor.py line 91). -/
def CommandExecutor.step_resolution (st : ExecState) (s : Step) :
    Option Capability × SysState :=
  CapabilityRegistry.get_capability st.sys s.bot_name s.capability_id

/-- One iteration of the `for i, step in enumerate(steps)` body
(executor.py lines 84-201) at 0-based index `i`: resolve the capability
(`steps_executed = i` on failure), gate permissions (`steps_executed =
i` on denial), dispatch and append the outcome (`steps_executed = i + 1`
on a failed outcome).  The `except` clause at executor.py lines 181-201
is unreachable here: `_execute_step` already catches handler exceptions
and nothing else in the body raises. -/
def CommandExecutor.process_step (env : ExecEnv) (total : Nat) (i : Nat) (step : Step)
    (st : ExecState) : StepProgress :=
  let step_num := i + 1
  let res := CommandExecutor.step_resolution st step
  match res.1 with
  | none =>
    let error_msg := "Step " ++ toString step_num ++ ": Capability " ++ "\x27" ++
      step.capability_id ++ "\x27 not found for bot " ++ "\x27" ++ step.bot_name ++ "\x27"
    let db2 := Database.log_action res.2.db "command_executed"
      (some env.user_id) (some env.username)
      (.obj [("command_name", .str env.command_name), ("step", .num step_num),
             ("error", .str error_msg)]) false
    .halt { success := false, steps_executed := some i, total_steps := some total,
            results := some st.results, error := some error_msg }
      { sys := { db := db2, registry := res.2.registry },
        results := st.results, trace := st.trace }
  | some capability =>
    if capability.permissions_required.truthy &&
        !(capability.permissions_required.iterStrings.any (fun perm_level =>
            Database.check_permission res.2.db env.user_id step.bot_name
              step.capability_id perm_level)) then
      let error_msg := "Step " ++ toString step_num ++ ": Permission denied for " ++
        "\x27" ++ step.capability_id ++ "\x27"
      let db2 := Database.log_action res.2.db "command_executed"
        (some env.user_id) (some env.username)
        (.obj [("command_name", .str env.command_name), ("step", .num step_num),
               ("error", .str error_msg)]) false
      .halt { success := false, steps_executed := some i, total_steps := some total,
              results := some st.results, error := some error_msg }
        { sys := { db := db2, registry := res.2.registry },
          results := st.results, trace := st.trace }
    else
      let sr := CommandExecutor._execute_step env.bot_handlers step.bot_name
        step.capability_id step.parameters env.context st.trace
      let outcome : StepOutcome :=
        { step := step_num, bot_name := step.bot_name, capability_id := step.capability_id,
          success := sr.1.success, result := sr.1.result, error := sr.1.error }
      let results2 := st.results ++ [outcome]
      if !sr.1.success then
        let error_msg := "Step " ++ toString step_num ++ " failed: " ++
          (sr.1.error.getD "Unknown error")
        let db2 := Database.log_action res.2.db "command_executed"
          (some env.user_id) (some env.username)
          (.obj [("command_name", .str env.command_name), ("step", .num step_num),
                 ("error", .str error_msg)]) false
        .halt { success := false, steps_executed := some (i + 1), total_steps := some total,
                results := some results2, error := some error_msg }
          { sys := { db := db2, registry := res.2.registry },
            results := results2, trace := sr.2 }
      else
        .next { sys := res.2, results := results2, trace := sr.2 }

/-- The step loop of `execute_command`; `total` is `len(steps)` of the
full list, `i` the running index.  When the list is exhausted the
all-steps-succeeded return (executor.py lines 203-222) fires. -/
def CommandExecutor.exec_steps (env : ExecEnv) (total : Nat) :
    List Step → Nat → ExecState → ExecResult × ExecState
  | [], _, st =>
    let db2 := Database.log_action st.sys.db "command_executed"
      (some env.user_id) (some env.username)
      (.obj [("command_name", .str env.command_name), ("steps_executed", .num total),
             ("results", .arr (st.results.map StepOutcome.toValue))]) true
    ({ success := true, steps_executed := some total, total_steps := some total,
       results := some st.results, error := none },
     { sys := { db := db2, registry := st.sys.registry },
       results := st.results, trace := st.trace })
  | step :: rest, i, st =>
    match CommandExecutor.process_step env total i step st with
    | .next st2 => CommandExecutor.exec_steps env total rest (i + 1) st2
    | .halt r st2 => (r, st2)

/-- The initial loop state of one `execute_command` call (`results = []`,
nothing invoked yet). -/
def CommandExecutor.initState (sys : SysState) : ExecState :=
  { sys := sys, results := [], trace := [] }

/-- Bundles `execute_command`'s fixed arguments into an `ExecEnv`. -/
def CommandExecutor.mkEnv (bot_handlers : String → Option Handler)
    (command_name user_id username : String) (context : Value) : ExecEnv :=
  { bot_handlers := bot_handlers, command_name := command_name,
    user_id := user_id, username := username, context := context }

/-- Embeds `CommandExecutor.execute_command` (executor.py lines 45-222): load
the command (absent or disabled ⇒ audited failure dict with only
`success`/`error`), then run the step loop. -/
def CommandExecutor.execute_command (sys : SysState)
    (bot_handlers : String → Option Handler)
    (command_name user_id username : String) (context : Value) :
    ExecResult × ExecState :=
  match Database.get_custom_command sys.db command_name with
  | none =>
    let db2 := Database.log_action sys.db "command_executed"
      (some user_id) (some username)
      (.obj [("command_name", .str command_name), ("error", .str "Command not found")]) false
    ({ success := false, steps_executed := none, total_steps := none,
       results := none,
       error := some ("Command \"" ++ command_name ++ "\" not found") },
     { sys := { db := db2, registry := sys.registry }, results := [], trace := [] })
  | some command =>
    CommandExecutor.exec_steps
      (CommandExecutor.mkEnv bot_handlers command_name user_id username context)
      command.steps.length command.steps 0 (CommandExecutor.initState sys)

/-- The ways the step loop can advance past a prefix of the steps: run
`process_step` on each in turn, requiring every iteration to continue.
Used to phrase "every step before position `i` succeeded". -/
def CommandExecutor.advance_steps (env : ExecEnv) (total : Nat) :
    List Step → Nat → ExecState → Option ExecState
  | [], _, st => some st
  | s :: rest, i, st =>
    match CommandExecutor.process_step env total i s st with
    | .next st2 => CommandExecutor.advance_steps env total rest (i + 1) st2
    | .halt _ _ => none

/-- Models `HTTPBotHandler`'s network effect for one `execute_capability` call:
`requests.post` followed by `raise_for_status`, so a transport error and
a non-2xx status both surface as a raised exception (`failure` with
`str(e)`), and a 2xx response yields its JSON body. -/
inductive HttpResponse where
  | success (body : Value)
  | failure (msg : String)

/-- Embeds `HTTPBotHandler.execute_capability` (utils/bot_handler.py lines
116-158): posts `{"parameters": ..., "context": ...}`; on success wraps
the body in a `status: success` dict, and on any exception RETURNS a
`status: error` dict (it does not re-raise). -/
def HTTPBotHandler.execute_capability (net : String → Value → HttpResponse)
    (bot_name capability_id : String) (parameters context : Value) : Value :=
  let payload : Value := .obj [("parameters", parameters), ("context", context)]
  match net capability_id payload with
  | .success body =>
    .obj [("status", .str "success"), ("result", body),
          ("bot_name", .str bot_name), ("capability_id", .str capability_id)]
  | .failure e =>
    .obj [("status", .str "error"), ("error", .str e),
          ("bot_name", .str bot_name), ("capability_id", .str capability_id)]

/-- An `HTTPBotHandler` registered in the executor's handler table: the
executor calls its `execute_capability`, which is an ordinary returning
call (never a raise on transport failure). -/
def HTTPBotHandler.toHandler (net : String → Value → HttpResponse) (bot_name : String) :
    Handler :=
  fun capability_id parameters context =>
    .ok (HTTPBotHandler.execute_capability net bot_name capability_id parameters context)

/-! Helper lemmas shared by several claims. -/

/-- An empty system state: fresh database, empty registry cache. -/
def sysEmpty : SysState := ⟨⟨[], [], [], []⟩, ⟨[]⟩⟩

/-- Dict assignment of a key that is not present appends it. -/
theorem dictInsert_not_mem (d : List (String × Capability)) (k : String) (v : Capability)
    (h : ∀ e ∈ d, (e.1 == k) = false) : dictInsert d k v = d ++ [(k, v)] := by
  unfold dictInsert
  rw [if_neg]
  intro hany
  obtain ⟨e, he, hek⟩ := List.any_eq_true.mp hany
  rw [h e he] at hek
  exact Bool.false_ne_true hek

/-- Looking up a freshly appended key whose key was absent before. -/
theorem dictFind_append_single (d : List (String × Capability)) (k : String) (v : Capability)
    (h : ∀ e ∈ d, (e.1 == k) = false) : dictFind (d ++ [(k, v)]) k = some v := by
  induction d with
  | nil => simp [dictFind]
  | cons e d ih =>
    have he := h e (List.mem_cons_self e d)
    have ih2 := ih (fun x hx => h x (List.mem_cons_of_mem e hx))
    unfold dictFind at ih2 ⊢
    simp only [List.cons_append, List.find?_cons, he]
    exact ih2

/-! Claim C1. -/

/-- Claim C1: if every capability-scoped permission row for
`(user, bot, cap)` has level `read` (and at least one such row exists),
then `check_permission(user, bot, cap, "execute")` is `false`, even
though the same user also holds a bot-wide `admin` grant for `bot`: the
capability tier is consulted first and decides the call by its own level
alone, with no fallback to the bot-wide or global tiers. -/
theorem check_permission_capability_tier_wins
    (db : Database) (user bot cap : String)
    (hcap_grant : ∃ r ∈ db.permissions,
      r.user_id = user ∧ r.bot_name = some bot ∧ r.capability_id = some cap)
    (hcap_read : ∀ r ∈ db.permissions,
      r.user_id = user → r.bot_name = some bot → r.capability_id = some cap →
      r.permission_level = "read")
    (hbot_admin : ∃ r ∈ db.permissions,
      r.user_id = user ∧ r.bot_name = some bot ∧ r.capability_id = none ∧
      r.permission_level = "admin") :
    Database.check_permission db user bot cap "execute" = false := by
  obtain ⟨r0, hr0, h0⟩ := hcap_grant
  have hsome : (db.permissions.find? (fun r =>
      decide (r.user_id = user ∧ r.bot_name = some bot ∧
              r.capability_id = some cap))).isSome := by
    rw [List.find?_isSome]
    exact ⟨r0, hr0, by simp [h0.1, h0.2.1, h0.2.2]⟩
  obtain ⟨rf, hrf⟩ := Option.isSome_iff_exists.mp hsome
  have hprf := List.find?_some hrf
  have hmem := List.mem_of_find?_eq_some hrf
  simp only [decide_eq_true_eq] at hprf
  have hlevel := hcap_read rf hmem hprf.1 hprf.2.1 hprf.2.2
  unfold Database.check_permission
  rw [hrf]
  show Database._permission_level_allows rf.permission_level "execute" = false
  rw [hlevel]
  decide

/-- Concrete permission table for the C1 witness: a capability-scoped
`read` grant and a bot-wide `admin` grant for the same user and bot. -/
def dbC1 : Database :=
  ⟨[], [], [], [⟨"u1", none, some "web", some "ping", "read"⟩,
                ⟨"u1", none, some "web", none, "admin"⟩]⟩

/-- Witness for C1 at a concrete permission table. -/
theorem check_permission_capability_tier_wins_witness :
    Database.check_permission dbC1 "u1" "web" "ping" "execute" = false :=
  check_permission_capability_tier_wins dbC1 "u1" "web" "ping"
    (by decide) (by decide) (by decide)

/-! Claim C3. -/

/-- Claim C3 counterexample: on the empty step list
`validate_command_steps` returns `(True, None)` — it is accepted as
valid, not rejected, refuting the claim that the empty list yields
`ok = false`. -/
theorem validate_empty_steps_counterexample :
    (CapabilityRegistry.validate_command_steps sysEmpty []).1 = (true, none) := rfl

/-- Claim C3 amended: `validate_command_steps` applied to the empty step
list is accepted as valid (`ok = true`, no error message) in every
registry state — the validator has no non-emptiness check, so the empty
list passes vacuously. -/
theorem validate_empty_steps_accepted (st : SysState) :
    (CapabilityRegistry.validate_command_steps st []).1 = (true, none) := rfl

/-! Claim C7. -/

/-- First registration of the C7 scenario: bot `a`, capability `b:c`. -/
def regC7a : Bool × SysState :=
  CapabilityRegistry.register_capability sysEmpty "a" "b:c" "first" (.obj []) []

/-- Second registration of the C7 scenario: bot `a:b`, capability `c` —
a distinct pair whose colon-joined cache key collides with the first. -/
def regC7b : Bool × SysState :=
  CapabilityRegistry.register_capability regC7a.2 "a:b" "c" "second" (.obj []) []

/-- Claim C7 (code bug): the pairs `("a", "b:c")` and `("a:b", "c")` are
distinct, and the database stores them as two rows, but the registry
cache keys both by the string `"a:b:c"`, so the second registration
overwrites the first in the cache (one entry, not two separate entries)
and `get_capability "a" "b:c"` returns a capability whose `bot_name` is
`"a:b"` and whose `capability_id` is `"c"` — not the arguments. -/
theorem cache_key_collision_bug :
    regC7a.1 = true ∧ regC7b.1 = true ∧
    (CapabilityRegistry.get_capability regC7b.2 "a" "b:c").1.map Capability.bot_name =
      some "a:b" ∧
    (CapabilityRegistry.get_capability regC7b.2 "a" "b:c").1.map Capability.capability_id =
      some "c" ∧
    (CapabilityRegistry.get_capability regC7b.2 "a" "b:c").1.map Capability.description =
      some "second" ∧
    regC7b.2.registry.capabilities_cache.length = 1 ∧
    regC7b.2.db.capabilities.length = 2 := by decide

/-! Claim C9. -/

/-- Executing a command name that was never stored, on a fresh system. -/
def runC9 : ExecResult × ExecState :=
  CommandExecutor.execute_command sysEmpty (fun _ => none) "deploy" "u1" "alice" (.obj [])

/-- Claim C9 counterexample: the not-found result of `execute_command`
does not report `steps_executed = 0` — the returned dict carries no
`steps_executed` key at all (executor.py lines 73-76 return only
`success` and `error`). -/
theorem unknown_command_reports_no_step_count :
    runC9.1.steps_executed = none ∧ ¬(runC9.1.steps_executed = some 0) := by decide

/-- Claim C9 amended: for every command name that is not stored (or is
disabled), `execute_command` returns `success = false` with an error
message that mentions the command name, the result carries no
`steps_executed` (and no `results`) field — behaviourally zero steps
run — no handler is invoked, and exactly one audit entry with
`action_type = "command_executed"` and `success = false` is written. -/
theorem unknown_command_failure_result
    (sys : SysState) (bot_handlers : String → Option Handler)
    (name user uname : String) (ctx : Value)
    (h : Database.get_custom_command sys.db name = none) :
    (CommandExecutor.execute_command sys bot_handlers name user uname ctx).1.success = false ∧
    (CommandExecutor.execute_command sys bot_handlers name user uname ctx).1.error =
      some ("Command \"" ++ name ++ "\" not found") ∧
    (CommandExecutor.execute_command sys bot_handlers name user uname ctx).1.steps_executed =
      none ∧
    (CommandExecutor.execute_command sys bot_handlers name user uname ctx).1.results = none ∧
    (CommandExecutor.execute_command sys bot_handlers name user uname ctx).2.trace = [] ∧
    (CommandExecutor.execute_command sys bot_handlers name user uname ctx).2.sys.db.audit_logs =
      sys.db.audit_logs ++
        [⟨"command_executed", some user, some uname,
          .obj [("command_name", .str name), ("error", .str "Command not found")], false⟩] := by
  unfold CommandExecutor.execute_command
  rw [h]
  exact ⟨rfl, rfl, rfl, rfl, rfl, rfl⟩

/-- Witness for the amended C9 at a concrete unknown command name. -/
theorem unknown_command_failure_result_witness :
    (CommandExecutor.execute_command sysEmpty (fun _ => none) "deploy" "u1" "alice"
      (.obj [])).1.success = false ∧
    (CommandExecutor.execute_command sysEmpty (fun _ => none) "deploy" "u1" "alice"
      (.obj [])).1.error = some ("Command \"" ++ "deploy" ++ "\" not found") :=
  ⟨(unknown_command_failure_result sysEmpty (fun _ => none) "deploy" "u1" "alice"
      (.obj []) rfl).1,
   (unknown_command_failure_result sysEmpty (fun _ => none) "deploy" "u1" "alice"
      (.obj []) rfl).2.1⟩

/-! Claim C6. -/

/-- Registering a `(bot_name, capability_id)` pair that already has a
row in the store fails and leaves the whole state unchanged. -/
theorem register_capability_duplicate (st : SysState) (bot cap d : String)
    (p : Value) (q : List String)
    (h : st.db.capabilities.any (fun r =>
      decide (r.bot_name = bot ∧ r.capability_id = cap)) = true) :
    CapabilityRegistry.register_capability st bot cap d p q = (false, st) := by
  have hdb : Database.register_capability st.db bot cap d p q = (false, st.db) := by
    unfold Database.register_capability
    rw [if_pos h]
  unfold CapabilityRegistry.register_capability
  rw [hdb]
  rfl

/-- Claim C6: registering a fresh `(bot_name, capability_id)` twice
through the registry: the first call returns `true` and the capability
is afterwards visible to `get_capability` with exactly the registered
description and parameters; the second call (with any other description
and parameters) returns `false` and `get_capability` still returns the
originally stored description and parameters — no merge, no overwrite. -/
theorem register_twice_first_wins
    (st : SysState) (bot cap d1 d2 : String) (p1 p2 : Value) (q1 q2 : List String)
    (hdb : ∀ r ∈ st.db.capabilities, ¬(r.bot_name = bot ∧ r.capability_id = cap))
    (hcache : ∀ e ∈ st.registry.capabilities_cache, (e.1 == bot ++ ":" ++ cap) = false) :
    (CapabilityRegistry.register_capability st bot cap d1 p1 q1).1 = true ∧
    (CapabilityRegistry.get_capability
        (CapabilityRegistry.register_capability st bot cap d1 p1 q1).2 bot cap).1 =
      some ⟨bot, cap, d1, p1, .arr (q1.map Value.str)⟩ ∧
    (CapabilityRegistry.register_capability
        (CapabilityRegistry.register_capability st bot cap d1 p1 q1).2 bot cap d2 p2 q2).1 =
      false ∧
    (CapabilityRegistry.get_capability
        (CapabilityRegistry.register_capability
          (CapabilityRegistry.register_capability st bot cap d1 p1 q1).2 bot cap d2 p2 q2).2
        bot cap).1 =
      some ⟨bot, cap, d1, p1, .arr (q1.map Value.str)⟩ := by
  have hany1 : st.db.capabilities.any (fun r =>
      decide (r.bot_name = bot ∧ r.capability_id = cap)) = false := by
    rw [List.any_eq_false]
    intro r hr
    simpa using hdb r hr
  have hdbreg : Database.register_capability st.db bot cap d1 p1 q1 =
      (true, { st.db with capabilities := st.db.capabilities ++
        [{ bot_name := bot, capability_id := cap, description := d1,
           parameters := jsonEncode p1,
           permissions_required := jsonEncode (.arr (q1.map Value.str)) }] }) := by
    unfold Database.register_capability
    rw [if_neg]
    intro hc
    rw [hany1] at hc
    exact Bool.false_ne_true hc
  have hreg1 : CapabilityRegistry.register_capability st bot cap d1 p1 q1 =
      (true,
       { db := Database.log_action
           { st.db with capabilities := st.db.capabilities ++
             [{ bot_name := bot, capability_id := cap, description := d1,
                parameters := jsonEncode p1,
                permissions_required := jsonEncode (.arr (q1.map Value.str)) }] }
           "capability_registered" none none
           (.obj [("bot_name", .str bot), ("capability_id", .str cap),
                  ("description", .str d1)]) true,
         registry := { capabilities_cache :=
           st.registry.capabilities_cache ++
             [(bot ++ ":" ++ cap, ⟨bot, cap, d1, p1, .arr (q1.map Value.str)⟩)] } }) := by
    unfold CapabilityRegistry.register_capability
    rw [hdbreg]
    simp only [if_pos]
    rw [dictInsert_not_mem _ _ _ hcache]
  have hfind : dictFind
      (st.registry.capabilities_cache ++
        [(bot ++ ":" ++ cap, ⟨bot, cap, d1, p1, .arr (q1.map Value.str)⟩)])
      (bot ++ ":" ++ cap) = some ⟨bot, cap, d1, p1, .arr (q1.map Value.str)⟩ :=
    dictFind_append_single _ _ _ hcache
  have hcache1 : (CapabilityRegistry.register_capability st bot cap d1 p1 q1).2.registry.capabilities_cache =
      st.registry.capabilities_cache ++
        [(bot ++ ":" ++ cap, ⟨bot, cap, d1, p1, .arr (q1.map Value.str)⟩)] := by
    rw [hreg1]
  have hdbcaps1 : (CapabilityRegistry.register_capability st bot cap d1 p1 q1).2.db.capabilities =
      st.db.capabilities ++
        [{ bot_name := bot, capability_id := cap, description := d1,
           parameters := jsonEncode p1,
           permissions_required := jsonEncode (.arr (q1.map Value.str)) }] := by
    rw [hreg1]
    simp [Database.log_action]
  have hget1 : (CapabilityRegistry.get_capability
      (CapabilityRegistry.register_capability st bot cap d1 p1 q1).2 bot cap).1 =
      some ⟨bot, cap, d1, p1, .arr (q1.map Value.str)⟩ := by
    simp only [CapabilityRegistry.get_capability]
    rw [hcache1, hfind]
  have hany2 : (CapabilityRegistry.register_capability st bot cap d1 p1 q1).2.db.capabilities.any
      (fun r => decide (r.bot_name = bot ∧ r.capability_id = cap)) = true := by
    rw [hdbcaps1]
    simp
  have hreg2 : (CapabilityRegistry.register_capability
      (CapabilityRegistry.register_capability st bot cap d1 p1 q1).2 bot cap d2 p2 q2) =
      (false, (CapabilityRegistry.register_capability st bot cap d1 p1 q1).2) :=
    register_capability_duplicate _ bot cap d2 p2 q2 hany2
  refine ⟨by rw [hreg1], hget1, by rw [hreg2], ?_⟩
  rw [hreg2]
  exact hget1

/-- Witness for C6: register `weather:forecast` twice on a fresh system
with different descriptions/parameters. -/
theorem register_twice_first_wins_witness :
    (CapabilityRegistry.register_capability sysEmpty "weather" "forecast" "first"
      (.obj []) []).1 = true ∧
    (CapabilityRegistry.register_capability
        (CapabilityRegistry.register_capability sysEmpty "weather" "forecast" "first"
          (.obj []) []).2
        "weather" "forecast" "second" (.obj [("x", Value.str "y")]) ["execute"]).1 = false ∧
    (CapabilityRegistry.get_capability
        (CapabilityRegistry.register_capability
          (CapabilityRegistry.register_capability sysEmpty "weather" "forecast" "first"
            (.obj []) []).2
          "weather" "forecast" "second" (.obj [("x", Value.str "y")]) ["execute"]).2
        "weather" "forecast").1 =
      some ⟨"weather", "forecast", "first", .obj [], .arr []⟩ := by
  have h := register_twice_first_wins sysEmpty "weather" "forecast" "first" "second"
    (.obj []) (.obj [("x", Value.str "y")]) [] ["execute"] (by decide) (by decide)
  exact ⟨h.1, h.2.2.1, h.2.2.2⟩

/-! Claim C2. -/

/-- System for the C2 scenario: one capability `web:ping` with no
required permissions. -/
def sysC2base : SysState :=
  (CapabilityRegistry.register_capability sysEmpty "web" "ping" "ping the service"
    (.obj []) []).2

/-- The C2 scenario system with a stored two-step command, both steps
dispatching `web:ping`. -/
def sysC2 : SysState :=
  { db := (Database.save_custom_command sysC2base.db "healthcheck" "check twice"
      [⟨"web", "ping", .obj []⟩, ⟨"web", "ping", .obj []⟩] "u0").2,
    registry := sysC2base.registry }

/-- A network on which every HTTP request fails (`requests.post` raises,
e.g. connection refused — the same branch a non-2xx `raise_for_status`
takes). -/
def netRefused : String → Value → HttpResponse := fun _ _ => .failure "Connection refused"

/-- The C2 handler table: `web` is served by an `HTTPBotHandler` over
the failing network. -/
def handlersC2 : String → Option Handler :=
  fun b => if b = "web" then some (HTTPBotHandler.toHandler netRefused "web") else none

/-- The C2 execution. -/
def runC2 : ExecResult × ExecState :=
  CommandExecutor.execute_command sysC2 handlersC2 "healthcheck" "u1" "alice" (.obj [])

/-- Claim C2 (code bug): when every HTTP dispatch fails at transport,
`HTTPBotHandler.execute_capability` catches the exception and RETURNS a
`status: "error"` dict, but `_execute_step` wraps every normal handler
return as `success: True`, so `execute_command` records both steps as
successful (their payloads carrying `status = "error"`), continues past
the failing first step, dispatches step 2 as well, and reports overall
success — the transport error is neither surfaced as a failed step
outcome nor does execution stop. -/
theorem http_error_step_reported_successful :
    runC2.1.success = true ∧
    runC2.1.steps_executed = some 2 ∧
    runC2.1.total_steps = some 2 ∧
    (runC2.1.results.getD []).map StepOutcome.success = [true, true] ∧
    (runC2.1.results.getD []).map (fun o =>
      ((o.result.getD .nul).getField "status").bind Value.asString) =
      [some "error", some "error"] ∧
    runC2.2.trace = [("web", "ping"), ("web", "ping")] := by decide

/-! Executor loop lemmas shared by claims C4, C5, C8 and C10. -/

/-- A registry lookup never changes the database (it can only populate
the cache). -/
theorem get_capability_db (st : SysState) (b c : String) :
    (CapabilityRegistry.get_capability st b c).2.db = st.db := by
  simp only [CapabilityRegistry.get_capability]
  split
  · rfl
  · split
    · rfl
    · rfl

/-- A dispatch appends at most the dispatched step's own
`(bot_name, capability_id)` to the invocation trace. -/
theorem execute_step_trace (bot_handlers : String → Option Handler)
    (b c : String) (p ctx : Value) (t : List (String × String)) :
    (CommandExecutor._execute_step bot_handlers b c p ctx t).2 = t ∨
    (CommandExecutor._execute_step bot_handlers b c p ctx t).2 = t ++ [(b, c)] := by
  cases hh : bot_handlers b with
  | none => left; simp only [CommandExecutor._execute_step, hh]
  | some hd =>
    cases hr : hd c p ctx with
    | ok v => right; simp only [CommandExecutor._execute_step, hh, hr]
    | raise e => right; simp only [CommandExecutor._execute_step, hh, hr]

/-- A successful dispatch is a handler that returned normally: the step
call result wraps its value with `success = True` and the call was
appended to the trace. -/
theorem execute_step_success_shape (bot_handlers : String → Option Handler)
    (b c : String) (p ctx : Value) (t : List (String × String))
    (h : (CommandExecutor._execute_step bot_handlers b c p ctx t).1.success = true) :
    ∃ v, CommandExecutor._execute_step bot_handlers b c p ctx t =
      ({ success := true, result := some v, error := none }, t ++ [(b, c)]) := by
  cases hh : bot_handlers b with
  | none => simp [CommandExecutor._execute_step, hh] at h
  | some hd =>
    cases hr : hd c p ctx with
    | ok v =>
      refine ⟨v, ?_⟩
      simp only [CommandExecutor._execute_step, hh, hr]
    | raise e => simp [CommandExecutor._execute_step, hh, hr] at h

/-- A handler that raises is caught at the dispatch site: the step call
result is a failure dict carrying `str(e)`, and the call still counts as
an invocation in the trace. -/
theorem execute_step_raise (bot_handlers : String → Option Handler)
    (b c : String) (p ctx : Value) (t : List (String × String))
    (hd : Handler) (msg : String)
    (hh : bot_handlers b = some hd) (hr : hd c p ctx = .raise msg) :
    CommandExecutor._execute_step bot_handlers b c p ctx t =
      ({ success := false, result := none, error := some msg }, t ++ [(b, c)]) := by
  unfold CommandExecutor._execute_step
  simp only [hh, hr]

/-- A loop iteration whose step fails to resolve in the registry halts
with `steps_executed = i` (the 0-based index of the failing step) and
the results accumulated so far; nothing is dispatched. -/
theorem process_step_resolve_none (env : ExecEnv) (total i : Nat) (s : Step) (st : ExecState)
    (h : (CommandExecutor.step_resolution st s).1 = none) :
    ∃ r st2, CommandExecutor.process_step env total i s st = .halt r st2 ∧
      r.success = false ∧ r.steps_executed = some i ∧ r.total_steps = some total ∧
      r.results = some st.results ∧ st2.results = st.results ∧ st2.trace = st.trace := by
  cases hp : CommandExecutor.process_step env total i s st with
  | next st' =>
    simp only [CommandExecutor.process_step, h] at hp
    exact StepProgress.noConfusion hp
  | halt r st2 =>
    refine ⟨r, st2, rfl, ?_⟩
    simp only [CommandExecutor.process_step, h] at hp
    injection hp with h1 h2
    subst h1
    subst h2
    exact ⟨rfl, rfl, rfl, rfl, rfl, rfl⟩

/-- A loop iteration whose step resolves, passes the permission gate and
fails at dispatch halts with `steps_executed = i + 1` and appends the
failed outcome to the results. -/
theorem process_step_dispatch_fail (env : ExecEnv) (total i : Nat) (s : Step)
    (st : ExecState) (cap : Capability)
    (hres : (CommandExecutor.step_resolution st s).1 = some cap)
    (hperm : (cap.permissions_required.truthy &&
      !(cap.permissions_required.iterStrings.any (fun perm_level =>
        Database.check_permission st.sys.db env.user_id s.bot_name s.capability_id
          perm_level))) = false)
    (hfail : (CommandExecutor._execute_step env.bot_handlers s.bot_name s.capability_id
        s.parameters env.context st.trace).1.success = false) :
    ∃ r st2, CommandExecutor.process_step env total i s st = .halt r st2 ∧
      r.success = false ∧ r.steps_executed = some (i + 1) ∧ r.total_steps = some total ∧
      r.results = some (st.results ++
        [{ step := i + 1, bot_name := s.bot_name, capability_id := s.capability_id,
           success := false,
           result := (CommandExecutor._execute_step env.bot_handlers s.bot_name
             s.capability_id s.parameters env.context st.trace).1.result,
           error := (CommandExecutor._execute_step env.bot_handlers s.bot_name
             s.capability_id s.parameters env.context st.trace).1.error }]) ∧
      st2.results = st.results ++
        [{ step := i + 1, bot_name := s.bot_name, capability_id := s.capability_id,
           success := false,
           result := (CommandExecutor._execute_step env.bot_handlers s.bot_name
             s.capability_id s.parameters env.context st.trace).1.result,
           error := (CommandExecutor._execute_step env.bot_handlers s.bot_name
             s.capability_id s.parameters env.context st.trace).1.error }] ∧
      st2.trace = (CommandExecutor._execute_step env.bot_handlers s.bot_name
        s.capability_id s.parameters env.context st.trace).2 := by
  have hdb : (CommandExecutor.step_resolution st s).2.db = st.sys.db :=
    get_capability_db st.sys s.bot_name s.capability_id
  cases hp : CommandExecutor.process_step env total i s st with
  | next st' =>
    simp only [CommandExecutor.process_step, hres, hdb] at hp
    rw [hperm] at hp
    simp only [Bool.false_eq_true, if_false] at hp
    rw [hfail] at hp
    simp only [Bool.not_false, if_true] at hp
    exact StepProgress.noConfusion hp
  | halt r st2 =>
    refine ⟨r, st2, rfl, ?_⟩
    simp only [CommandExecutor.process_step, hres, hdb] at hp
    rw [hperm] at hp
    simp only [Bool.false_eq_true, if_false] at hp
    rw [hfail] at hp
    simp only [Bool.not_false, if_true] at hp
    injection hp with h1 h2
    subst h1
    subst h2
    exact ⟨rfl, rfl, rfl, rfl, rfl, rfl⟩

/-- A loop iteration that continues appended exactly one successful
outcome (with the handler's returned value) and exactly one trace entry,
and its registry/database state is the one the resolution produced. -/
theorem process_step_next_shape (env : ExecEnv) (total i : Nat) (s : Step)
    (st st2 : ExecState)
    (h : CommandExecutor.process_step env total i s st = .next st2) :
    ∃ v, st2.results = st.results ++
        [{ step := i + 1, bot_name := s.bot_name, capability_id := s.capability_id,
           success := true, result := some v, error := none }] ∧
      st2.trace = st.trace ++ [(s.bot_name, s.capability_id)] := by
  simp only [CommandExecutor.process_step] at h
  split at h
  · exact StepProgress.noConfusion h
  · split at h
    · exact StepProgress.noConfusion h
    · split at h
      · exact StepProgress.noConfusion h
      · rename_i hcond
        have hsucc : (CommandExecutor._execute_step env.bot_handlers s.bot_name
            s.capability_id s.parameters env.context st.trace).1.success = true := by
          by_contra hc
          exact hcond (by simp [Bool.eq_false_iff.mpr hc])
        obtain ⟨v, hv⟩ := execute_step_success_shape env.bot_handlers s.bot_name
          s.capability_id s.parameters env.context st.trace hsucc
        injection h with h1
        subst h1
        refine ⟨v, ?_, ?_⟩
        · rw [hv]
        · rw [hv]

/-- Any halting loop iteration reports either `steps_executed = i` with
the results so far (resolution or permission failure) or
`steps_executed = i + 1` with exactly one appended outcome (dispatch
failure). -/
theorem process_step_halt_shape (env : ExecEnv) (total i : Nat) (s : Step)
    (st : ExecState) (r : ExecResult) (st2 : ExecState)
    (h : CommandExecutor.process_step env total i s st = .halt r st2) :
    (r.steps_executed = some i ∧ r.results = some st.results) ∨
    (r.steps_executed = some (i + 1) ∧
      ∃ out, r.results = some (st.results ++ [out])) := by
  simp only [CommandExecutor.process_step] at h
  split at h
  · injection h with h1 h2
    subst h1
    left
    exact ⟨rfl, rfl⟩
  · split at h
    · injection h with h1 h2
      subst h1
      left
      exact ⟨rfl, rfl⟩
    · split at h
      · injection h with h1 h2
        subst h1
        right
        exact ⟨rfl, _, rfl⟩
      · exact StepProgress.noConfusion h

/-- The step loop on a list whose head iteration halts returns that
iteration's result. -/
theorem exec_steps_halt (env : ExecEnv) (total : Nat) (s : Step) (rest : List Step)
    (i : Nat) (st : ExecState) (r : ExecResult) (st2 : ExecState)
    (h : CommandExecutor.process_step env total i s st = .halt r st2) :
    CommandExecutor.exec_steps env total (s :: rest) i st = (r, st2) := by
  simp only [CommandExecutor.exec_steps, h]

/-- Running the step loop over `pre ++ rest` when every iteration over
`pre` continues equals running it over `rest` from the advanced state. -/
theorem exec_steps_of_advance (env : ExecEnv) (total : Nat) (pre : List Step) :
    ∀ (rest : List Step) (i : Nat) (st st2 : ExecState),
      CommandExecutor.advance_steps env total pre i st = some st2 →
      CommandExecutor.exec_steps env total (pre ++ rest) i st =
        CommandExecutor.exec_steps env total rest (i + pre.length) st2 := by
  induction pre with
  | nil =>
    intro rest i st st2 h
    simp only [CommandExecutor.advance_steps, Option.some.injEq] at h
    subst h
    simp
  | cons s pre ih =>
    intro rest i st st2 h
    cases hp : CommandExecutor.process_step env total i s st with
    | next st1 =>
      simp only [CommandExecutor.advance_steps, hp] at h
      have h2 : CommandExecutor.advance_steps env total pre (i + 1) st1 = some st2 := h
      have heq : CommandExecutor.exec_steps env total ((s :: pre) ++ rest) i st =
          CommandExecutor.exec_steps env total (pre ++ rest) (i + 1) st1 := by
        simp only [List.cons_append, CommandExecutor.exec_steps, hp]
        rfl
      rw [heq, ih rest (i + 1) st1 st2 h2]
      congr 1
      simp only [List.length_cons]
      omega
    | halt r st3 =>
      simp only [CommandExecutor.advance_steps, hp] at h
      exact Option.noConfusion h

/-- When the command loads, `execute_command` is the step loop over its
stored steps from a fresh loop state. -/
theorem execute_command_bridge
    (sys : SysState) (bot_handlers : String → Option Handler)
    (name user uname : String) (ctx : Value) (cmd : CommandRow)
    (hcmd : Database.get_custom_command sys.db name = some cmd) :
    CommandExecutor.execute_command sys bot_handlers name user uname ctx =
      CommandExecutor.exec_steps (CommandExecutor.mkEnv bot_handlers name user uname ctx)
        cmd.steps.length cmd.steps 0 (CommandExecutor.initState sys) := by
  unfold CommandExecutor.execute_command
  rw [hcmd]

/-- Advancing past a one-step prefix is exactly one continuing
iteration. -/
theorem advance_single (env : ExecEnv) (total : Nat) (s : Step) (i : Nat)
    (st st1 : ExecState)
    (h : CommandExecutor.advance_steps env total [s] i st = some st1) :
    CommandExecutor.process_step env total i s st = .next st1 := by
  cases hp : CommandExecutor.process_step env total i s st with
  | next st' =>
    simp only [CommandExecutor.advance_steps, hp, Option.some.injEq] at h
    rw [h]
  | halt r st2 =>
    simp only [CommandExecutor.advance_steps, hp] at h
    exact Option.noConfusion h

/-! Claim C4. -/

/-- Claim C4: with the 0-based prefix `pre` of a stored command's steps
all succeeding (so the failing step is the 1-based step
`i = pre.length + 1`), a failure to resolve that step in the registry
reports `steps_executed = pre.length = i - 1`, while a resolved,
permission-passing step whose dispatch produces an unsuccessful outcome
reports `steps_executed = pre.length + 1 = i`: a step counts as executed
exactly when its dispatch was attempted. -/
theorem steps_executed_accounting
    (sys : SysState) (bot_handlers : String → Option Handler)
    (name user uname : String) (ctx : Value) (cmd : CommandRow)
    (pre : List Step) (s : Step) (post : List Step) (st1 : ExecState)
    (hcmd : Database.get_custom_command sys.db name = some cmd)
    (hsteps : cmd.steps = pre ++ s :: post)
    (hpre : CommandExecutor.advance_steps
      (CommandExecutor.mkEnv bot_handlers name user uname ctx)
      cmd.steps.length pre 0 (CommandExecutor.initState sys) = some st1) :
    ((CommandExecutor.step_resolution st1 s).1 = none →
      (CommandExecutor.execute_command sys bot_handlers name user uname
        ctx).1.steps_executed = some pre.length) ∧
    (∀ cap, (CommandExecutor.step_resolution st1 s).1 = some cap →
      (cap.permissions_required.truthy &&
        !(cap.permissions_required.iterStrings.any (fun perm_level =>
          Database.check_permission st1.sys.db user s.bot_name s.capability_id
            perm_level))) = false →
      (CommandExecutor._execute_step bot_handlers s.bot_name s.capability_id s.parameters
        ctx st1.trace).1.success = false →
      (CommandExecutor.execute_command sys bot_handlers name user uname
        ctx).1.steps_executed = some (pre.length + 1)) := by
  have hbr := execute_command_bridge sys bot_handlers name user uname ctx cmd hcmd
  rw [hsteps] at hbr hpre
  have hadv := exec_steps_of_advance
    (CommandExecutor.mkEnv bot_handlers name user uname ctx)
    (pre ++ s :: post).length pre (s :: post) 0 (CommandExecutor.initState sys) st1 hpre
  rw [Nat.zero_add] at hadv
  constructor
  · intro hres
    obtain ⟨r, st2, heq, hsucc, hse, -, -, -, -⟩ :=
      process_step_resolve_none (CommandExecutor.mkEnv bot_handlers name user uname ctx)
        (pre ++ s :: post).length pre.length s st1 hres
    rw [hbr, hadv, exec_steps_halt _ _ _ _ _ _ _ _ heq]
    exact hse
  · intro cap hres hperm hfail
    obtain ⟨r, st2, heq, hsucc, hse, -, -, -, -⟩ :=
      process_step_dispatch_fail (CommandExecutor.mkEnv bot_handlers name user uname ctx)
        (pre ++ s :: post).length pre.length s st1 cap hres hperm hfail
    rw [hbr, hadv, exec_steps_halt _ _ _ _ _ _ _ _ heq]
    exact hse

/-! Claim C10. -/

/-- Loop invariant: whenever the step loop starts at index `i` with `i`
accumulated results and `total` set to `i` plus the remaining step
count, any returned `steps_executed = n` comes with a `results` list of
length exactly `n`. -/
theorem exec_steps_results_length (env : ExecEnv) (total : Nat) :
    ∀ (rest : List Step) (i : Nat) (st : ExecState),
      st.results.length = i → i + rest.length = total →
      ∀ n, (CommandExecutor.exec_steps env total rest i st).1.steps_executed = some n →
        ∃ rs, (CommandExecutor.exec_steps env total rest i st).1.results = some rs ∧
          rs.length = n := by
  intro rest
  induction rest with
  | nil =>
    intro i st hlen htot n hn
    simp only [CommandExecutor.exec_steps, Option.some.injEq] at hn
    refine ⟨st.results, by simp only [CommandExecutor.exec_steps], ?_⟩
    simp only [List.length_nil] at htot
    omega
  | cons s rest ih =>
    intro i st hlen htot n hn
    cases hp : CommandExecutor.process_step env total i s st with
    | next st1 =>
      have heq : CommandExecutor.exec_steps env total (s :: rest) i st =
          CommandExecutor.exec_steps env total rest (i + 1) st1 := by
        simp only [CommandExecutor.exec_steps, hp]
      rw [heq] at hn ⊢
      obtain ⟨v, hres1, -⟩ := process_step_next_shape env total i s st st1 hp
      have hlen1 : st1.results.length = i + 1 := by
        rw [hres1]
        simp [hlen]
      have htot1 : (i + 1) + rest.length = total := by
        simp only [List.length_cons] at htot
        omega
      exact ih (i + 1) st1 hlen1 htot1 n hn
    | halt r st2 =>
      have heq : CommandExecutor.exec_steps env total (s :: rest) i st = (r, st2) := by
        simp only [CommandExecutor.exec_steps, hp]
      rw [heq] at hn ⊢
      rcases process_step_halt_shape env total i s st r st2 hp with ⟨h1, h2⟩ | ⟨h1, out, h2⟩
      · rw [h1, Option.some.injEq] at hn
        refine ⟨st.results, h2, ?_⟩
        omega
      · rw [h1, Option.some.injEq] at hn
        refine ⟨st.results ++ [out], h2, ?_⟩
        simp only [List.length_append, List.length_cons, List.length_nil, hlen]
        omega

/-- Claim C10: whenever the result of `execute_command` carries a
`steps_executed` field, its `results` list is present and has exactly
`steps_executed` entries — one outcome per step whose dispatch was
attempted (successful or failed), and none for steps that never reached
dispatch. -/
theorem results_length_matches_steps_executed
    (sys : SysState) (bot_handlers : String → Option Handler)
    (name user uname : String) (ctx : Value) (n : Nat)
    (h : (CommandExecutor.execute_command sys bot_handlers name user uname
      ctx).1.steps_executed = some n) :
    ∃ rs, (CommandExecutor.execute_command sys bot_handlers name user uname
      ctx).1.results = some rs ∧ rs.length = n := by
  cases hc : Database.get_custom_command sys.db name with
  | none =>
    unfold CommandExecutor.execute_command at h
    rw [hc] at h
    exact Option.noConfusion (show (none : Option Nat) = some n from h)
  | some cmd =>
    have hbr := execute_command_bridge sys bot_handlers name user uname ctx cmd hc
    rw [hbr] at h ⊢
    exact exec_steps_results_length (CommandExecutor.mkEnv bot_handlers name user uname ctx)
      cmd.steps.length cmd.steps 0 (CommandExecutor.initState sys) rfl
      (Nat.zero_add _) n h

/-! Claim C5. -/

/-- Claim C5: a three-step command whose first step succeeds and whose
second step (resolved, permission-passing) fails at dispatch reports
`steps_executed = 2` and `total_steps = 3`; its results list holds the
outcomes of steps 1 and 2 only (step 1 successful, step 2 failed); and
no handler bound to step 3's bot is ever invoked — every entry of the
invocation trace belongs to step 1's or step 2's bot, which are distinct
from step 3's. -/
theorem three_step_failfast
    (sys : SysState) (bot_handlers : String → Option Handler)
    (name user uname : String) (ctx : Value) (cmd : CommandRow)
    (s1 s2 s3 : Step) (st1 : ExecState) (cap : Capability)
    (hcmd : Database.get_custom_command sys.db name = some cmd)
    (hsteps : cmd.steps = [s1, s2, s3])
    (hpre : CommandExecutor.advance_steps
      (CommandExecutor.mkEnv bot_handlers name user uname ctx)
      cmd.steps.length [s1] 0 (CommandExecutor.initState sys) = some st1)
    (hres : (CommandExecutor.step_resolution st1 s2).1 = some cap)
    (hperm : (cap.permissions_required.truthy &&
      !(cap.permissions_required.iterStrings.any (fun perm_level =>
        Database.check_permission st1.sys.db user s2.bot_name s2.capability_id
          perm_level))) = false)
    (hfail : (CommandExecutor._execute_step bot_handlers s2.bot_name s2.capability_id
      s2.parameters ctx st1.trace).1.success = false)
    (hb1 : s3.bot_name ≠ s1.bot_name) (hb2 : s3.bot_name ≠ s2.bot_name) :
    (CommandExecutor.execute_command sys bot_handlers name user uname
      ctx).1.steps_executed = some 2 ∧
    (CommandExecutor.execute_command sys bot_handlers name user uname
      ctx).1.total_steps = some 3 ∧
    (∃ rs, (CommandExecutor.execute_command sys bot_handlers name user uname
        ctx).1.results = some rs ∧
      rs.map StepOutcome.step = [1, 2] ∧ rs.map StepOutcome.success = [true, false]) ∧
    (∀ p ∈ (CommandExecutor.execute_command sys bot_handlers name user uname
        ctx).2.trace, p.1 ≠ s3.bot_name) := by
  have hbr := execute_command_bridge sys bot_handlers name user uname ctx cmd hcmd
  rw [hsteps] at hbr hpre
  have hadv2 : CommandExecutor.exec_steps
      (CommandExecutor.mkEnv bot_handlers name user uname ctx)
      ([s1, s2, s3] : List Step).length [s1, s2, s3] 0 (CommandExecutor.initState sys) =
      CommandExecutor.exec_steps (CommandExecutor.mkEnv bot_handlers name user uname ctx)
      ([s1, s2, s3] : List Step).length [s2, s3] 1 st1 :=
    exec_steps_of_advance (CommandExecutor.mkEnv bot_handlers name user uname ctx)
      ([s1, s2, s3] : List Step).length [s1] [s2, s3] 0
      (CommandExecutor.initState sys) st1 hpre
  obtain ⟨r, st2, heq, hsucc, hse, htot, hresu, hst2res, hst2tr⟩ :=
    process_step_dispatch_fail (CommandExecutor.mkEnv bot_handlers name user uname ctx)
      ([s1, s2, s3] : List Step).length 1 s2 st1 cap hres hperm hfail
  have hps1 := advance_single (CommandExecutor.mkEnv bot_handlers name user uname ctx)
    ([s1, s2, s3] : List Step).length s1 0 (CommandExecutor.initState sys) st1 hpre
  obtain ⟨v, hres1, htr1⟩ := process_step_next_shape
    (CommandExecutor.mkEnv bot_handlers name user uname ctx)
    ([s1, s2, s3] : List Step).length 0 s1 (CommandExecutor.initState sys) st1 hps1
  have hrun : CommandExecutor.execute_command sys bot_handlers name user uname ctx =
      (r, st2) := by
    rw [hbr, hadv2, exec_steps_halt _ _ _ _ _ _ _ _ heq]
  simp only [CommandExecutor.mkEnv] at hst2tr hresu
  refine ⟨?_, ?_, ?_, ?_⟩
  · rw [hrun]
    exact hse
  · rw [hrun]
    exact htot
  · refine ⟨st1.results ++
      [{ step := 1 + 1, bot_name := s2.bot_name, capability_id := s2.capability_id,
         success := false,
         result := (CommandExecutor._execute_step bot_handlers s2.bot_name s2.capability_id
           s2.parameters ctx st1.trace).1.result,
         error := (CommandExecutor._execute_step bot_handlers s2.bot_name s2.capability_id
           s2.parameters ctx st1.trace).1.error }], ?_, ?_, ?_⟩
    · rw [hrun]
      exact hresu
    · rw [hres1]
      simp [CommandExecutor.initState]
    · rw [hres1]
      simp [CommandExecutor.initState]
  · intro p hp
    rw [hrun] at hp
    rw [hst2tr] at hp
    rcases execute_step_trace bot_handlers s2.bot_name s2.capability_id s2.parameters ctx
      st1.trace with hE | hE
    · rw [hE, htr1] at hp
      simp [CommandExecutor.initState] at hp
      rw [hp]
      exact Ne.symm hb1
    · rw [hE, htr1] at hp
      simp [CommandExecutor.initState] at hp
      rcases hp with hp | hp
      · rw [hp]
        exact Ne.symm hb1
      · rw [hp]
        exact Ne.symm hb2

/-! Claim C8. -/

/-- Claim C8: a handler that raises during dispatch of the step after a
succeeding prefix is caught and converted into a failed step outcome
(the last entry of the returned results list, carrying `str(e)` as its
error and reporting `success = false`); the overall result is a normal
failure dict — in this total model `execute_command` always returns a
value, so no exception crosses the executor boundary. -/
theorem handler_exception_converted
    (sys : SysState) (bot_handlers : String → Option Handler)
    (name user uname : String) (ctx : Value) (cmd : CommandRow)
    (pre : List Step) (s : Step) (post : List Step) (st1 : ExecState)
    (cap : Capability) (hd : Handler) (msg : String)
    (hcmd : Database.get_custom_command sys.db name = some cmd)
    (hsteps : cmd.steps = pre ++ s :: post)
    (hpre : CommandExecutor.advance_steps
      (CommandExecutor.mkEnv bot_handlers name user uname ctx)
      cmd.steps.length pre 0 (CommandExecutor.initState sys) = some st1)
    (hres : (CommandExecutor.step_resolution st1 s).1 = some cap)
    (hperm : (cap.permissions_required.truthy &&
      !(cap.permissions_required.iterStrings.any (fun perm_level =>
        Database.check_permission st1.sys.db user s.bot_name s.capability_id
          perm_level))) = false)
    (hh : bot_handlers s.bot_name = some hd)
    (hraise : hd s.capability_id s.parameters ctx = .raise msg) :
    (CommandExecutor.execute_command sys bot_handlers name user uname ctx).1.success =
      false ∧
    (∃ rs, (CommandExecutor.execute_command sys bot_handlers name user uname
        ctx).1.results = some rs ∧
      rs.getLast? = some
        { step := pre.length + 1, bot_name := s.bot_name,
          capability_id := s.capability_id, success := false, result := none,
          error := some msg }) := by
  have hE := execute_step_raise bot_handlers s.bot_name s.capability_id s.parameters ctx
    st1.trace hd msg hh hraise
  have hfail : (CommandExecutor._execute_step bot_handlers s.bot_name s.capability_id
      s.parameters ctx st1.trace).1.success = false := by
    rw [hE]
  have hbr := execute_command_bridge sys bot_handlers name user uname ctx cmd hcmd
  rw [hsteps] at hbr hpre
  have hadv := exec_steps_of_advance
    (CommandExecutor.mkEnv bot_handlers name user uname ctx)
    (pre ++ s :: post).length pre (s :: post) 0 (CommandExecutor.initState sys) st1 hpre
  rw [Nat.zero_add] at hadv
  obtain ⟨r, st2, heq, hsucc, hse, htot, hresu, -, -⟩ :=
    process_step_dispatch_fail (CommandExecutor.mkEnv bot_handlers name user uname ctx)
      (pre ++ s :: post).length pre.length s st1 cap hres hperm hfail
  have hrun : CommandExecutor.execute_command sys bot_handlers name user uname ctx =
      (r, st2) := by
    rw [hbr, hadv, exec_steps_halt _ _ _ _ _ _ _ _ heq]
  simp only [CommandExecutor.mkEnv] at hresu
  rw [hE] at hresu
  refine ⟨?_, ?_⟩
  · rw [hrun]
    exact hsucc
  · refine ⟨st1.results ++
      [{ step := pre.length + 1, bot_name := s.bot_name, capability_id := s.capability_id,
         success := false, result := none, error := some msg }], ?_, ?_⟩
    · rw [hrun]
      exact hresu
    · exact List.getLast?_concat _

/-! Concrete witness scenario for the executor claims: three bots with
one capability each (no permissions required), four stored commands, a
handler table where `alpha` and `gamma` succeed and `beta` raises. -/

/-- Step dispatching `alpha:a1`. -/
def stepA : Step := ⟨"alpha", "a1", .obj []⟩

/-- Step dispatching `beta:b1` (its handler raises). -/
def stepB : Step := ⟨"beta", "b1", .obj []⟩

/-- Step dispatching `gamma:g1`. -/
def stepG : Step := ⟨"gamma", "g1", .obj []⟩

/-- Step referencing a capability that was never registered. -/
def stepGhost : Step := ⟨"ghost", "nope", .obj []⟩

/-- The witness registry: `alpha:a1`, `beta:b1`, `gamma:g1`. -/
def sysX0 : SysState :=
  (CapabilityRegistry.register_capability
    (CapabilityRegistry.register_capability
      (CapabilityRegistry.register_capability sysEmpty
        "alpha" "a1" "first bot" (.obj []) []).2
      "beta" "b1" "second bot" (.obj []) []).2
    "gamma" "g1" "third bot" (.obj []) []).2

/-- The witness system: the registry plus stored commands `wf` (step 2
unresolvable), `wf2` (step 2 raises), `combo` (three steps, step 2
raises) and `noop` (no steps). -/
def sysX : SysState :=
  { db := (Database.save_custom_command
      (Database.save_custom_command
        (Database.save_custom_command
          (Database.save_custom_command sysX0.db
            "wf" "resolve fail" [stepA, stepGhost] "u0").2
          "wf2" "dispatch fail" [stepA, stepB] "u0").2
        "combo" "three steps" [stepA, stepB, stepG] "u0").2
      "noop" "no steps" [] "u0").2,
    registry := sysX0.registry }

/-- Handler for `alpha`: returns normally. -/
def hdAlpha : Handler := fun _ _ _ => .ok (.str "done")

/-- Handler for `beta`: raises. -/
def hdBeta : Handler := fun _ _ _ => .raise "boom"

/-- Handler for `gamma`: returns normally. -/
def hdGamma : Handler := fun _ _ _ => .ok (.str "done")

/-- The witness handler table. -/
def handlersX : String → Option Handler := fun b =>
  if b = "alpha" then some hdAlpha
  else if b = "beta" then some hdBeta
  else if b = "gamma" then some hdGamma
  else none

/-- The stored row of command `wf`. -/
def cmdWf : CommandRow := ⟨"wf", "resolve fail", [stepA, stepGhost], "u0", true⟩

/-- The stored row of command `wf2`. -/
def cmdWf2 : CommandRow := ⟨"wf2", "dispatch fail", [stepA, stepB], "u0", true⟩

/-- The stored row of command `combo`. -/
def cmdCombo : CommandRow := ⟨"combo", "three steps", [stepA, stepB, stepG], "u0", true⟩

/-- The loop state after the succeeding first step of `wf`. -/
def stWf : ExecState :=
  (CommandExecutor.advance_steps
    (CommandExecutor.mkEnv handlersX "wf" "u1" "alice" (.obj []))
    cmdWf.steps.length [stepA] 0 (CommandExecutor.initState sysX)).getD default

/-- The loop state after the succeeding first step of `wf2`. -/
def stWf2 : ExecState :=
  (CommandExecutor.advance_steps
    (CommandExecutor.mkEnv handlersX "wf2" "u1" "alice" (.obj []))
    cmdWf2.steps.length [stepA] 0 (CommandExecutor.initState sysX)).getD default

/-- The loop state after the succeeding first step of `combo`. -/
def stCombo : ExecState :=
  (CommandExecutor.advance_steps
    (CommandExecutor.mkEnv handlersX "combo" "u1" "alice" (.obj []))
    cmdCombo.steps.length [stepA] 0 (CommandExecutor.initState sysX)).getD default

/-- The capability step 2 of `wf2` resolves to. -/
def capB4 : Capability := ((CommandExecutor.step_resolution stWf2 stepB).1).getD default

/-- The capability step 2 of `combo` resolves to. -/
def capB5 : Capability := ((CommandExecutor.step_resolution stCombo stepB).1).getD default

/-- Witness for C4: `wf` fails to resolve its 1-based step 2 and reports
`steps_executed = 1`; `wf2` fails at dispatch of step 2 and reports
`steps_executed = 2`. -/
theorem steps_executed_accounting_witness :
    (CommandExecutor.execute_command sysX handlersX "wf" "u1" "alice"
      (.obj [])).1.steps_executed = some 1 ∧
    (CommandExecutor.execute_command sysX handlersX "wf2" "u1" "alice"
      (.obj [])).1.steps_executed = some 2 := by
  constructor
  · exact (steps_executed_accounting sysX handlersX "wf" "u1" "alice" (.obj []) cmdWf
      [stepA] stepGhost [] stWf rfl rfl rfl).1 rfl
  · exact (steps_executed_accounting sysX handlersX "wf2" "u1" "alice" (.obj []) cmdWf2
      [stepA] stepB [] stWf2 rfl rfl rfl).2 capB4 rfl rfl rfl

/-- Witness for C5 on the concrete three-step command `combo`. -/
theorem three_step_failfast_witness :
    (CommandExecutor.execute_command sysX handlersX "combo" "u1" "alice"
      (.obj [])).1.steps_executed = some 2 ∧
    (CommandExecutor.execute_command sysX handlersX "combo" "u1" "alice"
      (.obj [])).1.total_steps = some 3 ∧
    (∃ rs, (CommandExecutor.execute_command sysX handlersX "combo" "u1" "alice"
        (.obj [])).1.results = some rs ∧
      rs.map StepOutcome.step = [1, 2] ∧ rs.map StepOutcome.success = [true, false]) ∧
    (∀ p ∈ (CommandExecutor.execute_command sysX handlersX "combo" "u1" "alice"
        (.obj [])).2.trace, p.1 ≠ "gamma") :=
  three_step_failfast sysX handlersX "combo" "u1" "alice" (.obj []) cmdCombo
    stepA stepB stepG stCombo capB5 rfl rfl rfl rfl rfl rfl (by decide) (by decide)

/-- Witness for C8: the raise in `beta`'s handler during `wf2` becomes
the failed final step outcome. -/
theorem handler_exception_converted_witness :
    (CommandExecutor.execute_command sysX handlersX "wf2" "u1" "alice"
      (.obj [])).1.success = false ∧
    (∃ rs, (CommandExecutor.execute_command sysX handlersX "wf2" "u1" "alice"
        (.obj [])).1.results = some rs ∧
      rs.getLast? = some ⟨2, "beta", "b1", false, none, some "boom"⟩) :=
  handler_exception_converted sysX handlersX "wf2" "u1" "alice" (.obj []) cmdWf2
    [stepA] stepB [] stWf2 capB4 hdBeta "boom" rfl rfl rfl rfl rfl rfl rfl

/-- Witness for C10 on the stored zero-step command `noop`. -/
theorem results_length_matches_steps_executed_witness :
    ∃ rs, (CommandExecutor.execute_command sysX handlersX "noop" "u1" "alice"
      (.obj [])).1.results = some rs ∧ rs.length = 0 :=
  results_length_matches_steps_executed sysX handlersX "noop" "u1" "alice" (.obj []) 0 rfl
